import Mathlib

/-
  Verification development for the rustatio BitTorrent ratio-faker.

  The Rust sources under rustatio-core and rustatio-server are shallowly
  embedded: byte strings become lists of natural numbers (each < 256 by
  construction), u64 counters become Nat, f64 quantities that only feed
  comparisons become exact rationals, and the nondeterminism of wall-clock
  time, random jitter and tracker I/O is passed in explicitly as
  environment data.  Fallible Rust paths return Option or carry an
  explicit success flag.
-/

namespace Rustatio

/-- Bytes of an ASCII string, as natural numbers. -/
def strBytes (s : String) : List Nat := s.data.map Char.toNat

/-! ### SHA-1 (RFC 3174), over byte lists

Used by calculate_info_hash in rustatio-core/src/torrent/info.rs
(via the sha1 crate). -/

/-- 2^32, the modulus of SHA-1 word arithmetic. -/
def w32 : Nat := 4294967296

/-- Rotate a 32-bit word left by k bits. -/
def rotl32 (x k : Nat) : Nat := (Nat.lor (x <<< k) (x >>> (32 - k))) % w32

/-- Big-endian byte expansion of v into k bytes (most significant first). -/
def beBytes : Nat → Nat → List Nat
  | 0, _ => []
  | k + 1, v => beBytes k (v / 256) ++ [v % 256]

/-- SHA-1 message padding: 0x80, zeros, then the 64-bit big-endian bit length. -/
def sha1pad (msg : List Nat) : List Nat :=
  let len := msg.length
  let zeros := (64 - ((len + 9) % 64)) % 64
  msg ++ [128] ++ List.replicate zeros 0 ++ beBytes 8 (8 * len)

/-- Split a byte list into 64-byte blocks (fuel-driven, fuel = list length). -/
def blocksGo : Nat → List Nat → List (List Nat)
  | 0, _ => []
  | _, [] => []
  | fuel + 1, l => l.take 64 :: blocksGo fuel (l.drop 64)

def blocks (l : List Nat) : List (List Nat) := blocksGo l.length l

/-- Pack bytes into big-endian 32-bit words. -/
def toWords : List Nat → List Nat
  | b0 :: b1 :: b2 :: b3 :: rest => (((b0 * 256 + b1) * 256 + b2) * 256 + b3) :: toWords rest
  | _ => []

/-- Extend the 16-word schedule by n further words. -/
def sha1sched (ws : List Nat) : Nat → List Nat
  | 0 => ws
  | n + 1 =>
    let m := ws.length
    let w := rotl32 (Nat.xor (Nat.xor (ws.getD (m - 3) 0) (ws.getD (m - 8) 0))
      (Nat.xor (ws.getD (m - 14) 0) (ws.getD (m - 16) 0))) 1
    sha1sched (ws ++ [w]) n

/-- SHA-1 round function. -/
def sha1f (t b c d : Nat) : Nat :=
  if t < 20 then Nat.lor (Nat.land b c) (Nat.land (Nat.xor b 4294967295) d)
  else if t < 40 then Nat.xor (Nat.xor b c) d
  else if t < 60 then Nat.lor (Nat.lor (Nat.land b c) (Nat.land b d)) (Nat.land c d)
  else Nat.xor (Nat.xor b c) d

/-- SHA-1 round constants. -/
def sha1k (t : Nat) : Nat :=
  if t < 20 then 1518500249
  else if t < 40 then 1859775393
  else if t < 60 then 2400959708
  else 3395469782

/-- One 64-byte block of SHA-1 compression. -/
def sha1block (h : Nat × Nat × Nat × Nat × Nat) (block : List Nat) :
    Nat × Nat × Nat × Nat × Nat :=
  let ws := sha1sched (toWords block) 64
  let (h0, h1, h2, h3, h4) := h
  let st := (List.range 80).foldl
    (fun st t =>
      let (a, b, c, d, e) := st
      let tmp := (rotl32 a 5 + sha1f t b c d + e + sha1k t + ws.getD t 0) % w32
      (tmp, a, rotl32 b 30, c, d))
    (h0, h1, h2, h3, h4)
  let (a, b, c, d, e) := st
  ((h0 + a) % w32, (h1 + b) % w32, (h2 + c) % w32, (h3 + d) % w32, (h4 + e) % w32)

/-- The SHA-1 digest (20 bytes) of a byte list. -/
def sha1 (msg : List Nat) : List Nat :=
  let hs := (blocks (sha1pad msg)).foldl sha1block
    (1732584193, 4023233417, 2562383102, 271733878, 3285377520)
  let (h0, h1, h2, h3, h4) := hs
  beBytes 4 h0 ++ beBytes 4 h1 ++ beBytes 4 h2 ++ beBytes 4 h3 ++ beBytes 4 h4

/-! ### Bencode codec

Embeds the serde_bencode value model used by
rustatio-core/src/protocol/bencode.rs: parsing produces a tagged value
whose dictionaries behave like HashMap (unordered, last duplicate key
wins); serialization emits dictionaries with entries sorted by raw key
bytes.  serde_bencode's from_bytes parses one value from the front of
the input and ignores trailing bytes. -/

inductive Bencode where
  | int : Int → Bencode
  | bytes : List Nat → Bencode
  | list : List Bencode → Bencode
  | dict : List (List Nat × Bencode) → Bencode
deriving Repr, BEq, Inhabited

/-- HashMap-style insert on an association list: replace an existing key. -/
def dictInsert : List (List Nat × Bencode) → List Nat → Bencode →
    List (List Nat × Bencode)
  | [], k, v => [(k, v)]
  | (k', v') :: rest, k, v =>
    if k' = k then (k, v) :: rest else (k', v') :: dictInsert rest k v

/-- HashMap-style lookup on an association list. -/
def dictGet : List (List Nat × Bencode) → List Nat → Option Bencode
  | [], _ => none
  | (k', v') :: rest, k => if k' = k then some v' else dictGet rest k

/-- Consume a run of ASCII digits, accumulating their value. -/
def takeDigits : List Nat → Nat → Nat → (Nat × Nat × List Nat)
  | [], acc, count => (acc, count, [])
  | c :: rest, acc, count =>
    if 48 ≤ c ∧ c ≤ 57 then takeDigits rest (acc * 10 + (c - 48)) (count + 1)
    else (acc, count, c :: rest)

/-- Parse the integer body between the i and e markers (optional minus,
one or more digits, leading zeros accepted as by str::parse in Rust). -/
def parseIntBody (l : List Nat) : Option (Int × List Nat) :=
  match l with
  | 45 :: rest =>
    let (v, n, r) := takeDigits rest 0 0
    if n = 0 then none
    else match r with
      | 101 :: r' => some (-(v : Int), r')
      | _ => none
  | _ =>
    let (v, n, r) := takeDigits l 0 0
    if n = 0 then none
    else match r with
      | 101 :: r' => some ((v : Int), r')
      | _ => none

/-- Parse a bencode byte string: decimal length, a colon, then the bytes. -/
def parseStrTok (l : List Nat) : Option (List Nat × List Nat) :=
  let (len, n, r) := takeDigits l 0 0
  if n = 0 then none
  else match r with
    | 58 :: r' => if len ≤ r'.length then some (r'.take len, r'.drop len) else none
    | _ => none

mutual

/-- Parse one bencode value from the front of the input (fuel-driven). -/
def parseVal : Nat → List Nat → Option (Bencode × List Nat)
  | 0, _ => none
  | fuel + 1, l =>
    match l with
    | [] => none
    | 105 :: rest =>
      match parseIntBody rest with
      | some (v, r) => some (.int v, r)
      | none => none
    | 108 :: rest =>
      match parseListItems fuel rest with
      | some (xs, r) => some (.list xs, r)
      | none => none
    | 100 :: rest =>
      match parseDictItems fuel rest [] with
      | some (es, r) => some (.dict es, r)
      | none => none
    | _ =>
      match parseStrTok l with
      | some (s, r) => some (.bytes s, r)
      | none => none

/-- Parse list items up to the closing e marker. -/
def parseListItems : Nat → List Nat → Option (List Bencode × List Nat)
  | 0, _ => none
  | fuel + 1, l =>
    match l with
    | 101 :: rest => some ([], rest)
    | _ =>
      match parseVal fuel l with
      | some (v, r) =>
        match parseListItems fuel r with
        | some (xs, r') => some (v :: xs, r')
        | none => none
      | none => none

/-- Parse dictionary entries (key must be a byte string) up to the closing
e marker, with HashMap replace-on-duplicate semantics. -/
def parseDictItems : Nat → List Nat → List (List Nat × Bencode) →
    Option (List (List Nat × Bencode) × List Nat)
  | 0, _, _ => none
  | fuel + 1, l, acc =>
    match l with
    | 101 :: rest => some (acc, rest)
    | _ =>
      match parseStrTok l with
      | some (k, r) =>
        match parseVal fuel r with
        | some (v, r') => parseDictItems fuel r' (dictInsert acc k v)
        | none => none
      | none => none

end

/-- serde_bencode::from_bytes: parse one value from the front, ignore the
rest of the input. -/
def bparse (data : List Nat) : Option Bencode :=
  match parseVal (2 * data.length + 4) data with
  | some (v, _) => some v
  | none => none

/-- Parse one value and also report how many input bytes it consumed. -/
def bparseConsumed (data : List Nat) : Option (Bencode × Nat) :=
  match parseVal (2 * data.length + 4) data with
  | some (v, r) => some (v, data.length - r.length)
  | none => none

/-- Decimal digits of a natural number, as bytes. -/
def natDecimal (n : Nat) : List Nat := strBytes (toString n)

/-- Decimal representation of an integer, as bytes (matches i64 Display). -/
def intDecimal (i : Int) : List Nat := strBytes (toString i)

/-- Byte-lexicographic comparison of raw keys (Vec of u8 Ord in Rust). -/
def keyLe : List Nat → List Nat → Bool
  | [], _ => true
  | _ :: _, [] => false
  | a :: as', b :: bs' =>
    if a < b then true else if b < a then false else keyLe as' bs'

/-- Insertion sort of encoded dictionary entries by raw key, mirroring the
entries.sort() step of serde_bencode's map serializer. -/
def insortPair (p : List Nat × List Nat) :
    List (List Nat × List Nat) → List (List Nat × List Nat)
  | [] => [p]
  | q :: rest => if keyLe p.1 q.1 then p :: q :: rest else q :: insortPair p rest

def sortPairs : List (List Nat × List Nat) → List (List Nat × List Nat)
  | [] => []
  | p :: rest => insortPair p (sortPairs rest)

/-- serde_bencode::to_bytes on a parsed value: byte strings as len:bytes,
integers as i...e, lists in order, dictionaries with entries sorted by
raw key bytes.  Fuel-driven (structural on the fuel, so the kernel can
evaluate it); any fuel larger than the value's nesting depth yields the
true serialization, and the callers below pass the length of the byte
string the value was parsed from, which always exceeds that depth. -/
def bencodeValGo : Nat → Bencode → List Nat
  | 0, _ => []
  | _ + 1, .int i => 105 :: intDecimal i ++ [101]
  | _ + 1, .bytes b => natDecimal b.length ++ [58] ++ b
  | fuel + 1, .list xs =>
    108 :: (xs.map fun x => bencodeValGo fuel x).flatten ++ [101]
  | fuel + 1, .dict es =>
    let encoded := es.map fun kv => (kv.1, bencodeValGo fuel kv.2)
    100 :: ((sortPairs encoded).map fun kv =>
      natDecimal kv.1.length ++ [58] ++ kv.1 ++ kv.2).flatten ++ [101]

/-- bencode::get_string – a byte-string value for the key (the Rust code
converts to text with from_utf8_lossy; we keep the raw bytes, which is
lossless on the ASCII inputs considered here). -/
def get_string (es : List (List Nat × Bencode)) (key : String) : Option (List Nat) :=
  match dictGet es (strBytes key) with
  | some (.bytes b) => some b
  | _ => none

/-- bencode::get_int. -/
def get_int (es : List (List Nat × Bencode)) (key : String) : Option Int :=
  match dictGet es (strBytes key) with
  | some (.int i) => some i
  | _ => none

/-- bencode::get_bytes. -/
def get_bytes (es : List (List Nat × Bencode)) (key : String) : Option (List Nat) :=
  match dictGet es (strBytes key) with
  | some (.bytes b) => some b
  | _ => none

/-! ### Torrent metadata

Embeds TorrentInfo::from_bytes and calculate_info_hash from
rustatio-core/src/torrent/info.rs.  Strings are kept as raw bytes (the
Rust code converts them with from_utf8_lossy, lossless on ASCII). -/

structure TorrentFileM where
  path : List (List Nat)
  length : Int
deriving Repr, BEq

structure TorrentInfoM where
  info_hash : List Nat
  announce : List Nat
  announce_list : Option (List (List (List Nat)))
  name : List Nat
  total_size : Nat
  piece_length : Int
  num_pieces : Nat
  creation_date : Option Int
  comment : Option (List Nat)
  created_by : Option (List Nat)
  is_single_file : Bool
  files : List TorrentFileM
deriving Repr, BEq

/-- First index at which pat occurs in l (the windows().position scan in
calculate_info_hash). -/
def findSub (pat l : List Nat) : Option Nat :=
  (List.range l.length).find? fun i => pat.isPrefixOf (l.drop i)

/-- calculate_info_hash: parse the whole input (root must be a dict), find
the first occurrence of the bytes 4:info, parse one bencode value just
after it, RE-SERIALIZE that value with serde_bencode and hash the
re-serialized bytes.  Note the hash is taken over the re-encoding, not
over the original input slice. -/
def calculate_info_hash (data : List Nat) : Option (List Nat) :=
  match bparse data with
  | some (.dict _) =>
    match findSub (strBytes "4:info") data with
    | none => none
    | some idx =>
      match bparse (data.drop (idx + 6)) with
      | some v => some (sha1 (bencodeValGo data.length v))
      | none => none
  | _ => none

/-- The announce-list extraction of from_bytes (tiers that are not lists
and URLs that are not byte strings are silently skipped). -/
def announceListOf (dict : List (List Nat × Bencode)) :
    Option (List (List (List Nat))) :=
  match dictGet dict (strBytes "announce-list") with
  | some (.list tiers) => some (tiers.filterMap fun t =>
      match t with
      | .list urls => some (urls.filterMap fun u =>
          match u with
          | .bytes b => some b
          | _ => none)
      | _ => none)
  | _ => none

/-- The multi-file branch: fold over the files list, failing on a non-dict
entry, a missing length or a missing path list. -/
def parseFiles : List Bencode → Option (List TorrentFileM × Nat)
  | [] => some ([], 0)
  | f :: rest =>
    match f with
    | .dict fd =>
      match get_int fd "length" with
      | none => none
      | some len =>
        match dictGet fd (strBytes "path") with
        | some (.list ps) =>
          let path := ps.filterMap fun p =>
            match p with
            | .bytes b => some b
            | _ => none
          match parseFiles rest with
          | some (fs, total) => some (⟨path, len⟩ :: fs, len.toNat + total)
          | none => none
        | _ => none
    | _ => none

/-- TorrentInfo::from_bytes. -/
def from_bytes (data : List Nat) : Option TorrentInfoM :=
  match bparse data with
  | some (.dict dict) =>
    match get_string dict "announce" with
    | none => none
    | some announce =>
      let announce_list := announceListOf dict
      match dictGet dict (strBytes "info") with
      | some (.dict info_dict) =>
        match calculate_info_hash data with
        | none => none
        | some info_hash =>
          match get_string info_dict "name" with
          | none => none
          | some name =>
            match get_int info_dict "piece length" with
            | none => none
            | some piece_length =>
              match get_bytes info_dict "pieces" with
              | none => none
              | some pieces =>
                let num_pieces := pieces.length / 20
                let creation_date :=
                  match dictGet dict (strBytes "creation date") with
                  | some (.int i) => some i
                  | _ => none
                let comment :=
                  match dictGet dict (strBytes "comment") with
                  | some (.bytes b) => some b
                  | _ => none
                let created_by :=
                  match dictGet dict (strBytes "created by") with
                  | some (.bytes b) => some b
                  | _ => none
                match get_int info_dict "length" with
                | some len =>
                  some { info_hash, announce, announce_list, name,
                         total_size := len.toNat, piece_length, num_pieces,
                         creation_date, comment, created_by,
                         is_single_file := true,
                         files := [⟨[name], len⟩] }
                | none =>
                  match dictGet info_dict (strBytes "files") with
                  | some (.list fl) =>
                    match parseFiles fl with
                    | some (files, total) =>
                      some { info_hash, announce, announce_list, name,
                             total_size := total, piece_length, num_pieces,
                             creation_date, comment, created_by,
                             is_single_file := false, files }
                    | none => none
                  | _ => none
      | _ => none
  | _ => none

/-- Written from the spec, for comparison with calculate_info_hash: the
exact contiguous byte slice of the bencoded info value as it appears in
the input, located at the first 4:info marker. -/
def infoSliceOriginal (data : List Nat) : Option (List Nat) :=
  match findSub (strBytes "4:info") data with
  | none => none
  | some idx =>
    let rest := data.drop (idx + 6)
    match bparseConsumed rest with
    | some (_, n) => some (rest.take n)
    | none => none

/-- A well-formed single-file torrent whose info dictionary is bencoded
with its keys out of canonical order (pieces before name before length):
serde_bencode parses it into a HashMap without complaint, so
from_bytes accepts it. -/
def t1bytes : List Nat := strBytes
  "d8:announce9:http://tr4:infod6:pieces20:aaaaaaaaaaaaaaaaaaaa4:name1:x12:piece lengthi1e6:lengthi1eee"

/-! ### Client fingerprint

Embeds ClientConfig from rustatio-core/src/torrent/client.rs.  Rust
strings become lists of characters (all inputs are ASCII). -/

inductive ClientTypeM where
  | uTorrent | qBittorrentC | transmission | deluge
deriving Repr, DecidableEq

structure ClientConfigM where
  client_type : ClientTypeM
  version : List Char
  peer_id_pref : List Char
  user_agent : List Char
  num_want : Nat
  supports_compact : Bool
  supports_crypto : Bool
deriving Repr

/-- The PadString helper: truncate to width, or pad on the right. -/
def pad_to_width_with_char (s : List Char) (width : Nat) (ch : Char) : List Char :=
  if width ≤ s.length then s.take width
  else s ++ List.replicate (width - s.length) ch

/-- Split a character list on a separator, str::split style (an empty
input yields one empty piece). -/
def splitOnChar (c : Char) : List Char → List (List Char)
  | [] => [[]]
  | x :: rest =>
    if x = c then [] :: splitOnChar c rest
    else match splitOnChar c rest with
      | [] => [[x]]
      | piece :: pieces => (x :: piece) :: pieces

/-- ClientConfig::qbittorrent. -/
def qbittorrent (version : Option (List Char)) : ClientConfigM :=
  let version := version.getD "5.1.4".data
  let parts := splitOnChar '.' version
  let version_code :=
    if 3 ≤ parts.length then parts.getD 0 [] ++ parts.getD 1 [] ++ parts.getD 2 []
    else "514".data
  let padded_version := pad_to_width_with_char version_code 4 '0'
  { client_type := .qBittorrentC,
    version := version,
    peer_id_pref := "-qB".data ++ padded_version ++ "-".data,
    user_agent := "qBittorrent/".data ++ version,
    num_want := 200,
    supports_compact := true,
    supports_crypto := true }

/-- The 62-character alphabet used by generate_peer_id. -/
def peerIdAlphabet : List Char :=
  "0123456789ABCDEFGHIJKLMNOPQRSTUVWXYZabcdefghijklmnopqrstuvwxyz".data

def alphaChar (i : Fin 62) : Char := peerIdAlphabet.getD i.val '0'

/-- ClientConfig::generate_peer_id, with the twelve random draws passed
in explicitly (each draw is uniform over the 62-character alphabet). -/
def generate_peer_id (cfg : ClientConfigM) (pick : Fin 12 → Fin 62) : List Char :=
  cfg.peer_id_pref ++ (List.finRange 12).map fun i => alphaChar (pick i)

/-! ### Tracker protocol

Embeds TrackerClient from rustatio-core/src/protocol/tracker.rs. -/

inductive TrackerEventM where
  | started | stopped | completed | noEvent
deriving Repr, DecidableEq

/-- TrackerEvent::as_str. -/
def eventStr : TrackerEventM → Option (List Char)
  | .started => some "started".data
  | .stopped => some "stopped".data
  | .completed => some "completed".data
  | .noEvent => none

structure AnnounceRequestM where
  info_hash : List Nat
  peer_id : List Char
  port : Nat
  uploaded : Nat
  downloaded : Nat
  left : Nat
  compact : Bool
  no_peer_id : Bool
  event : TrackerEventM
  ip : Option (List Char)
  numwant : Option Nat
  key : Option (List Char)
  tracker_id : Option (List Char)
deriving Repr

/-- Decimal digits of a Nat, as characters (u64 Display). -/
def natChars (n : Nat) : List Char := (toString n).data

/-- Uppercase hexadecimal digit. -/
def hexDigitU (n : Nat) : Char := "0123456789ABCDEF".data.getD n '0'

/-- One byte as a percent pair, format %{:02X} in the Rust code. -/
def byteHexU (b : Nat) : List Char :=
  ['%', hexDigitU (b / 16 % 16), hexDigitU (b % 16)]

/-- The info-hash query encoding: twenty %XX pairs over the raw bytes. -/
def infoHashEnc (h : List Nat) : List Char := (h.map byteHexU).flatten

/-- TrackerClient::build_announce_url, translated statement by statement
from the Vec pushes in the Rust code. -/
def build_announce_url (cfg : ClientConfigM) (tracker_url : List Char)
    (r : AnnounceRequestM) : List Char :=
  let info_hash_encoded := infoHashEnc r.info_hash
  let params := ["info_hash=".data ++ info_hash_encoded,
                 "peer_id=".data ++ r.peer_id,
                 "port=".data ++ natChars r.port,
                 "uploaded=".data ++ natChars r.uploaded,
                 "downloaded=".data ++ natChars r.downloaded,
                 "left=".data ++ natChars r.left,
                 "compact=".data ++ (if r.compact then "1".data else "0".data)]
  let params := params ++ (if r.no_peer_id then ["no_peer_id=1".data] else [])
  let params := params ++ (match eventStr r.event with
    | some e => ["event=".data ++ e]
    | none => [])
  let params := params ++ (match r.ip with
    | some ip => ["ip=".data ++ ip]
    | none => [])
  let params := params ++ (match r.numwant with
    | some n => ["numwant=".data ++ natChars n]
    | none => [])
  let params := params ++ (match r.key with
    | some k => ["key=".data ++ k]
    | none => [])
  let params := params ++ (match r.tracker_id with
    | some t => ["trackerid=".data ++ t]
    | none => [])
  let params := params ++ (if cfg.supports_crypto then ["supportcrypto=1".data] else [])
  let query_string := List.intercalate "&".data params
  let sep := if tracker_url.contains '?' then "&".data else "?".data
  tracker_url ++ sep ++ query_string

/-- Written from the spec, for comparison with build_announce_url: the
fixed parameter order of section 4.D, optional parameters present
exactly when set, separator by the question-mark rule. -/
def announceUrlSpec (cfg : ClientConfigM) (tracker_url : List Char)
    (r : AnnounceRequestM) : List Char :=
  let ordered : List (Option (List Char)) :=
    [some ("info_hash=".data ++ infoHashEnc r.info_hash),
     some ("peer_id=".data ++ r.peer_id),
     some ("port=".data ++ natChars r.port),
     some ("uploaded=".data ++ natChars r.uploaded),
     some ("downloaded=".data ++ natChars r.downloaded),
     some ("left=".data ++ natChars r.left),
     some ("compact=".data ++ (if r.compact then "1".data else "0".data)),
     if r.no_peer_id then some "no_peer_id=1".data else none,
     (eventStr r.event).map fun e => "event=".data ++ e,
     r.ip.map fun ip => "ip=".data ++ ip,
     r.numwant.map fun n => "numwant=".data ++ natChars n,
     r.key.map fun k => "key=".data ++ k,
     r.tracker_id.map fun t => "trackerid=".data ++ t,
     if cfg.supports_crypto then some "supportcrypto=1".data else none]
  tracker_url ++ (if tracker_url.contains '?' then "&".data else "?".data) ++
    List.intercalate "&".data ordered.reduceOption

/-! #### Scrape URL assembly and the url crate model -/

/-- str::replace – replace every non-overlapping occurrence of pat,
scanning left to right (fuel-driven; fuel is the input length, enough
for any nonempty pattern). -/
def replaceAllGo (pat rep : List Char) : Nat → List Char → List Char
  | 0, s => s
  | fuel + 1, s =>
    match s with
    | [] => []
    | c :: rest =>
      if pat.isPrefixOf s then rep ++ replaceAllGo pat rep fuel (s.drop pat.length)
      else c :: replaceAllGo pat rep fuel rest

def replaceAll (s pat rep : List Char) : List Char := replaceAllGo pat rep s.length s

/-- Model of a parsed url::Url, restricted to the simple absolute http
URLs this program uses (lowercase host, plain path, no query or
fragment yet), on which parse followed by to_string is the identity
up to the empty-path slash. -/
structure UrlM where
  host : List Char
  path : List Char
  query : Option (List Char)
deriving Repr

def hostOkChar (c : Char) : Bool :=
  (('a' ≤ c ∧ c ≤ 'z') ∨ ('0' ≤ c ∧ c ≤ '9') ∨ c = '.' ∨ c = '-' : Prop) |> decide

def pathOkChar (c : Char) : Bool :=
  (('a' ≤ c ∧ c ≤ 'z') ∨ ('A' ≤ c ∧ c ≤ 'Z') ∨ ('0' ≤ c ∧ c ≤ '9') ∨
    c = '/' ∨ c = '.' ∨ c = '-' ∨ c = '_' ∨ c = '~' : Prop) |> decide

/-- Url::parse, modeled on the restricted shape (scheme http, well-formed
host, plain path, no query, no fragment); anything else is out of the
modeled domain and returns none. -/
def urlParse (s : List Char) : Option UrlM :=
  if "http://".data.isPrefixOf s then
    let rest := s.drop 7
    let host := rest.takeWhile fun c => c ≠ '/'
    let path := rest.dropWhile fun c => c ≠ '/'
    if host ≠ [] ∧ host.all hostOkChar ∧ path.all pathOkChar then
      some { host, path, query := none }
    else none
  else none

/-- Url::to_string on the model: an empty path serializes as a slash, a
query is appended after a question mark. -/
def urlToString (u : UrlM) : List Char :=
  "http://".data ++ u.host ++ (if u.path = [] then "/".data else u.path) ++
    (match u.query with
     | some q => '?' :: q
     | none => [])

/-- One character of the form_urlencoded serializer used by
query_pairs_mut().append_pair: ASCII alphanumerics and * - . _ pass
through, space becomes +, everything else (notably the percent sign)
becomes an uppercase %XX escape. -/
def formEncChar (c : Char) : List Char :=
  if (('a' ≤ c ∧ c ≤ 'z') ∨ ('A' ≤ c ∧ c ≤ 'Z') ∨ ('0' ≤ c ∧ c ≤ '9') ∨
      c = '*' ∨ c = '-' ∨ c = '.' ∨ c = '_' : Prop) then [c]
  else if c = ' ' then ['+']
  else ['%', hexDigitU (c.toNat / 16 % 16), hexDigitU (c.toNat % 16)]

def formEnc (s : List Char) : List Char := (s.map formEncChar).flatten

/-- Url::query_pairs_mut().append_pair. -/
def appendPair (u : UrlM) (k v : List Char) : UrlM :=
  let pair := formEnc k ++ "=".data ++ formEnc v
  { u with query := some (match u.query with
      | none => pair
      | some q => q ++ "&".data ++ pair) }

/-- TrackerClient::build_scrape_url: textual replacement of every
/announce occurrence by /scrape, then append info_hash (already
percent-encoded) as a query pair through the url crate. -/
def build_scrape_url (tracker_url : List Char) (info_hash : List Nat) :
    Option (List Char) :=
  let scrape_url := replaceAll tracker_url "/announce".data "/scrape".data
  match urlParse scrape_url with
  | none => none
  | some url =>
    let info_hash_encoded := infoHashEnc info_hash
    some (urlToString (appendPair url "info_hash".data info_hash_encoded))

/-! #### Announce response handling -/

structure AnnounceResponseM where
  interval : Int
  min_interval : Option Int
  tracker_id : Option (List Nat)
  complete : Int
  incomplete : Int
  warning : Option (List Nat)
deriving Repr, DecidableEq

inductive TrackerResultM where
  | httpError
  | bencodeErr
  | trackerFailure : List Nat → TrackerResultM
  | invalidResponse
  | ok : AnnounceResponseM → TrackerResultM
deriving Repr, DecidableEq

/-- TrackerClient::parse_announce_response. -/
def parse_announce_response (data : List Nat) : TrackerResultM :=
  match bparse data with
  | none => .bencodeErr
  | some (.dict dict) =>
    match dictGet dict (strBytes "failure reason") with
    | some (.bytes r) => .trackerFailure r
    | _ =>
      match get_int dict "interval" with
      | none => .bencodeErr
      | some interval =>
        let complete := (get_int dict "complete").getD 0
        let incomplete := (get_int dict "incomplete").getD 0
        let min_interval :=
          match dictGet dict (strBytes "min interval") with
          | some (.int i) => some i
          | _ => none
        let tracker_id :=
          match dictGet dict (strBytes "tracker id") with
          | some (.bytes b) => some b
          | _ => none
        let warning :=
          match dictGet dict (strBytes "warning message") with
          | some (.bytes b) => some b
          | _ => none
        .ok { interval, min_interval, tracker_id, complete, incomplete, warning }
  | some _ => .invalidResponse

/-- TrackerClient::announce, response side: a non-2xx status is turned
into HttpError before the body is ever read; only a 2xx body reaches
parse_announce_response. -/
def announceResult (status : Nat) (body : List Nat) : TrackerResultM :=
  if 200 ≤ status ∧ status ≤ 299 then parse_announce_response body
  else .httpError

/-! ### Session engine

Embeds RatioFaker from rustatio-core/src/faker.rs.  The f64 rate
pipeline (progressive interpolation and random jitter) only influences
the two per-tick byte deltas, which the code truncates to u64; those
deltas are therefore passed in as environment data, together with the
wall clock and the outcome of each tracker announce the tick may issue.
The ratio field, an f64 used only in comparisons, is modeled as an
exact rational.  Display-only fields (current and average rates, the
rate history rings, progress percents and ETAs) are write-only in the
code paths the claims concern and are omitted.  Both copies of the
state tag are modeled: the supervisor-level cell (self.state) and the
one inside the stats snapshot (stats.state). -/

inductive FState where
  | idle | running | paused | stopped | completedS
deriving Repr, DecidableEq

/-- The fields of FakerConfig that the tick's control flow reads. -/
structure FakerCfgM where
  total_size : Nat
  stop_at_ratio : Option ℚ
  stop_at_uploaded : Option Nat
  stop_at_downloaded : Option Nat
  stop_at_seed_time : Option Nat
deriving Repr

structure FakerStM where
  state : FState
  statsState : FState
  uploaded : Nat
  downloaded : Nat
  left : Nat
  session_uploaded : Nat
  session_downloaded : Nat
  seeders : Int
  leechers : Int
  ratio : ℚ
  elapsed_time : Nat
  last_announce : Option Nat
  next_announce : Option Nat
  announce_interval : Nat
  start_time : Nat
  last_update : Nat
deriving Repr, DecidableEq

/-- A successful announce response as the session consumes it. -/
structure RespM where
  interval : Nat
  complete : Int
  incomplete : Int
deriving Repr, DecidableEq

/-- Per-tick environment: the wall clock, the byte deltas produced by the
f64 rate-and-jitter pipeline, and the outcome of each announce the tick
may issue (none = transport or tracker error). -/
structure TickEnv where
  now : Nat
  upDelta : Nat
  downDelta : Nat
  completedRes : Option RespM
  stoppedRes : Option RespM
  periodicRes : Option RespM
deriving Repr

/-- Announces issued to the tracker (the event parameter of each). -/
inductive Ev where
  | started | completedE | stoppedE | periodic
deriving Repr, DecidableEq

/-- RatioFaker::check_stop_conditions: ratio, session uploaded, session
downloaded and seed time, in this order; no other predicate exists. -/
def check_stop_conditions (cfg : FakerCfgM) (s : FakerStM) : Bool :=
  (match cfg.stop_at_ratio with
   | some target => decide (target - 1 / 1000 ≤ s.ratio)
   | none => false) ||
  (match cfg.stop_at_uploaded with
   | some target => decide (target ≤ s.session_uploaded)
   | none => false) ||
  (match cfg.stop_at_downloaded with
   | some target => decide (target ≤ s.session_downloaded)
   | none => false) ||
  (match cfg.stop_at_seed_time with
   | some target => decide (target ≤ s.elapsed_time)
   | none => false)

/-- RatioFaker::stop: announce with event stopped first; on failure the
error propagates and neither state cell is written; on success both
cells are set to Stopped. -/
def stopM (s : FakerStM) (res : Option RespM) : FakerStM × Bool :=
  match res with
  | none => (s, false)
  | some _ => ({ s with state := .stopped, statsState := .stopped }, true)

/-- RatioFaker::update, phase 1: record the tick's wall clock and advance
the upload counters by the tick's upload delta. -/
def tickCounters (s : FakerStM) (now upDelta : Nat) : FakerStM :=
  { s with last_update := now,
           uploaded := s.uploaded + upDelta,
           session_uploaded := s.session_uploaded + upDelta }

/-- RatioFaker::update, phase 2: the download block with the completion
check.  On completion, on_completed issues an announce with event
completed; if that announce fails the error returns out of update
immediately (Sum.inl carries the early return), otherwise both state
cells become Completed and the response peer counts are stored. -/
def tickDownload (s1 : FakerStM) (downDelta : Nat) (cres : Option RespM) :
    (FakerStM × List Ev × Bool) ⊕ (FakerStM × List Ev) :=
  if 0 < s1.left then
    let actual := min downDelta s1.left
    let s2 : FakerStM :=
      { s1 with downloaded := s1.downloaded + actual,
                session_downloaded := s1.session_downloaded + actual,
                left := s1.left - actual }
    if s2.left = 0 then
      match cres with
      | none => Sum.inl (s2, [Ev.completedE], false)
      | some r => Sum.inr
          ({ s2 with state := .completedS, statsState := .completedS,
                     seeders := r.complete, leechers := r.incomplete },
           [Ev.completedE])
    else Sum.inr (s2, [])
  else Sum.inr (s1, [])

/-- RatioFaker::update, phase 3: refresh the ratio and elapsed time. -/
def tickRefresh (cfg : FakerCfgM) (s3 : FakerStM) (now : Nat) : FakerStM :=
  { s3 with ratio := if 0 < cfg.total_size
              then (s3.uploaded : ℚ) / (cfg.total_size : ℚ) else 0,
            elapsed_time := now - s3.start_time }

/-- RatioFaker::update, phase 4: evaluate the stop conditions (a firing
condition issues a stopped announce through stop() and ends the tick),
otherwise issue the periodic announce when next_announce is due. -/
def tickFinish (cfg : FakerCfgM) (s4 : FakerStM) (now : Nat)
    (sres pres : Option RespM) (evs : List Ev) : FakerStM × List Ev × Bool :=
  if check_stop_conditions cfg s4 then
    match stopM s4 sres with
    | (s5, okFlag) => (s5, evs ++ [Ev.stoppedE], okFlag)
  else
    match s4.next_announce with
    | some na =>
      if na ≤ now then
        match pres with
        | none => (s4, evs ++ [Ev.periodic], false)
        | some r =>
          ({ s4 with announce_interval := r.interval,
                     seeders := r.complete, leechers := r.incomplete,
                     last_announce := some now,
                     next_announce := some (now + r.interval) },
           evs ++ [Ev.periodic], true)
      else (s4, evs, true)
    | none => (s4, evs, true)

/-- RatioFaker::update, one tick.  Returns the post-tick state, the list
of announces issued during the tick, and whether the tick returned Ok
(false = an announce error propagated out of update).  Follows the
code at lines 394-525 of faker.rs phase by phase. -/
def updateM (cfg : FakerCfgM) (s : FakerStM) (env : TickEnv) :
    FakerStM × List Ev × Bool :=
  match tickDownload (tickCounters s env.now env.upDelta) env.downDelta
      env.completedRes with
  | Sum.inl out => out
  | Sum.inr (s3, evs) =>
    tickFinish cfg (tickRefresh cfg s3 env.now) env.now env.stoppedRes
      env.periodicRes evs

/-- A run of consecutive ticks, accumulating every announce issued. -/
def runTicks (cfg : FakerCfgM) : FakerStM → List TickEnv → FakerStM × List Ev
  | s, [] => (s, [])
  | s, env :: envs =>
    let (s', evs, _) := updateM cfg s env
    let (s'', evs') := runTicks cfg s' envs
    (s'', evs ++ evs')

/-! ### Supervisor (rustatio-server/src/state.rs) -/

inductive SourceM where
  | manual | watchFolder
deriving Repr, DecidableEq

/-- The per-instance record the supervisor stores (FakerInstance), reduced
to the fields create_instance_internal and stop_instance read or write. -/
structure StoredInstance where
  torrent_info_hash : List Nat
  cumulative_uploaded : Nat
  cumulative_downloaded : Nat
  created_at : Nat
  source : SourceM
deriving Repr, DecidableEq

/-- The FakerConfig fields create_instance_internal overrides before
handing the config to RatioFaker::new. -/
structure CreateCfg where
  initial_uploaded : Nat
  initial_downloaded : Nat
deriving Repr, DecidableEq

def mapLookup (m : List (String × StoredInstance)) (id : String) :
    Option StoredInstance :=
  match m with
  | [] => none
  | (k, v) :: rest => if k = id then some v else mapLookup rest id

def mapInsert (m : List (String × StoredInstance)) (id : String)
    (v : StoredInstance) : List (String × StoredInstance) :=
  match m with
  | [] => [(id, v)]
  | (k, w) :: rest =>
    if k = id then (id, v) :: rest else (k, w) :: mapInsert rest id v

/-- AppState::create_instance_internal: inherit cumulative counters,
creation time and source when the id exists with the same info hash,
otherwise start from zero; the inherited counters become the faker
config's initial counter values.  Returns the new instance map and the
config passed to RatioFaker::new. -/
def create_instance_internal (instances : List (String × StoredInstance))
    (id : String) (torrent_info_hash : List Nat) (config : CreateCfg)
    (source : SourceM) (now : Nat) :
    List (String × StoredInstance) × CreateCfg :=
  let inherited :=
    match mapLookup instances id with
    | some existing =>
      if existing.torrent_info_hash = torrent_info_hash then
        (existing.cumulative_uploaded, existing.cumulative_downloaded,
         existing.created_at, some existing.source)
      else (0, 0, now, none)
    | none => (0, 0, now, none)
  let (cu, cd, created_at, existing_source) := inherited
  let final_source := existing_source.getD source
  let faker_config : CreateCfg :=
    { config with initial_uploaded := cu, initial_downloaded := cd }
  (mapInsert instances id
    { torrent_info_hash, cumulative_uploaded := cu,
      cumulative_downloaded := cd, created_at, source := final_source },
   faker_config)

/-- AppState::stop_instance: snapshot the stats, call RatioFaker::stop,
and only on success write the snapshot counters into the cumulative
fields; a stop failure propagates and leaves everything unchanged. -/
structure ServerInstance where
  faker : FakerStM
  cumulative_uploaded : Nat
  cumulative_downloaded : Nat
deriving Repr, DecidableEq

def stop_instance (inst : ServerInstance) (res : Option RespM) :
    ServerInstance × Bool :=
  let stats := inst.faker
  let (f', okFlag) := stopM inst.faker res
  if okFlag then
    ({ inst with faker := f',
                 cumulative_uploaded := stats.uploaded,
                 cumulative_downloaded := stats.downloaded }, true)
  else ({ inst with faker := f' }, false)

/-! ### Helper lemmas -/

theorem mapLookup_mapInsert (m : List (String × StoredInstance)) (id : String)
    (v : StoredInstance) : mapLookup (mapInsert m id v) id = some v := by
  induction m with
  | nil => simp [mapInsert, mapLookup]
  | cons p rest ih =>
    obtain ⟨k, w⟩ := p
    by_cases hk : k = id
    · simp [mapInsert, mapLookup, hk]
    · simp [mapInsert, mapLookup, hk, ih]

theorem infoHashEnc_length (h : List Nat) : (infoHashEnc h).length = 3 * h.length := by
  induction h with
  | nil => rfl
  | cons b t ih =>
    simp only [infoHashEnc, List.map_cons, List.flatten_cons, List.length_append,
      List.length_cons] at *
    simp [byteHexU] at *
    omega

theorem stopM_next (s : FakerStM) (r : Option RespM) :
    (stopM s r).1.next_announce = s.next_announce := by
  cases r <;> rfl

theorem tickDownload_inl_next (s1 : FakerStM) (d : Nat) (c : Option RespM)
    (out : FakerStM × List Ev × Bool) (h : tickDownload s1 d c = Sum.inl out) :
    out.1.next_announce = s1.next_announce := by
  simp only [tickDownload] at h
  split at h
  · split at h
    · cases c with
      | none =>
        simp only [Sum.inl.injEq] at h
        subst h
        rfl
      | some r => simp at h
    · simp at h
  · simp at h

theorem tickDownload_inr_next (s1 : FakerStM) (d : Nat) (c : Option RespM)
    (s3 : FakerStM) (evs : List Ev)
    (h : tickDownload s1 d c = Sum.inr (s3, evs)) :
    s3.next_announce = s1.next_announce := by
  simp only [tickDownload] at h
  split at h
  · split at h
    · cases c with
      | none => simp at h
      | some r =>
        simp only [Sum.inr.injEq, Prod.mk.injEq] at h
        rw [← h.1]
    · simp only [Sum.inr.injEq, Prod.mk.injEq] at h
      rw [← h.1]
  · simp only [Sum.inr.injEq, Prod.mk.injEq] at h
    rw [← h.1]

theorem tickFinish_next_fail (cfg : FakerCfgM) (s4 : FakerStM) (now : Nat)
    (sres : Option RespM) (evs : List Ev) :
    (tickFinish cfg s4 now sres none evs).1.next_announce = s4.next_announce := by
  simp only [tickFinish]
  by_cases hc : check_stop_conditions cfg s4
  · simp [hc, stopM_next]
  · simp only [hc]
    cases hna : s4.next_announce with
    | none => simp [hna]
    | some na =>
      by_cases hle : na ≤ now
      · simp [hle, hna]
      · simp [hle, hna]

theorem tickFinish_compare (cfg : FakerCfgM) (s4 : FakerStM) (now : Nat)
    (sres : Option RespM) (evs : List Ev) (r : RespM) :
    (tickFinish cfg s4 now sres none evs).1.state =
      (tickFinish cfg s4 now sres (some r) evs).1.state ∧
    (tickFinish cfg s4 now sres none evs).1.statsState =
      (tickFinish cfg s4 now sres (some r) evs).1.statsState ∧
    (tickFinish cfg s4 now sres none evs).1.uploaded =
      (tickFinish cfg s4 now sres (some r) evs).1.uploaded ∧
    (tickFinish cfg s4 now sres none evs).1.downloaded =
      (tickFinish cfg s4 now sres (some r) evs).1.downloaded ∧
    (tickFinish cfg s4 now sres none evs).1.left =
      (tickFinish cfg s4 now sres (some r) evs).1.left ∧
    (tickFinish cfg s4 now sres none evs).1.session_uploaded =
      (tickFinish cfg s4 now sres (some r) evs).1.session_uploaded ∧
    (tickFinish cfg s4 now sres none evs).1.session_downloaded =
      (tickFinish cfg s4 now sres (some r) evs).1.session_downloaded ∧
    (tickFinish cfg s4 now sres none evs).2.1 =
      (tickFinish cfg s4 now sres (some r) evs).2.1 := by
  simp only [tickFinish]
  by_cases hc : check_stop_conditions cfg s4
  · simp [hc]
  · simp only [hc]
    cases hna : s4.next_announce with
    | none => simp
    | some na =>
      by_cases hle : na ≤ now
      · simp [hle, hna]
      · simp [hle, hna]

/-- The download-counter part of the download block. -/
def dlApply (s1 : FakerStM) (d : Nat) : FakerStM :=
  { s1 with downloaded := s1.downloaded + min d s1.left,
            session_downloaded := s1.session_downloaded + min d s1.left,
            left := s1.left - min d s1.left }

/-- The state written by a successful on_completed. -/
def complApply (s : FakerStM) (r : RespM) : FakerStM :=
  { s with state := .completedS, statsState := .completedS,
           seeders := r.complete, leechers := r.incomplete }

theorem tickDownload_cases (s1 : FakerStM) (d : Nat) (c : Option RespM) :
    (¬ 0 < s1.left ∧ tickDownload s1 d c = Sum.inr (s1, [])) ∨
    (0 < s1.left ∧ ¬ s1.left ≤ d ∧
      tickDownload s1 d c = Sum.inr (dlApply s1 d, [])) ∨
    (0 < s1.left ∧ s1.left ≤ d ∧ c = none ∧
      tickDownload s1 d c = Sum.inl (dlApply s1 d, [Ev.completedE], false)) ∨
    (0 < s1.left ∧ s1.left ≤ d ∧ ∃ r, c = some r ∧
      tickDownload s1 d c = Sum.inr (complApply (dlApply s1 d) r, [Ev.completedE])) := by
  by_cases h1 : 0 < s1.left
  · by_cases h2 : s1.left ≤ d
    · have hz : s1.left - min d s1.left = 0 := by omega
      cases c with
      | none =>
        refine Or.inr (Or.inr (Or.inl ⟨h1, h2, rfl, ?_⟩))
        simp [tickDownload, dlApply, h1, hz]
      | some r =>
        refine Or.inr (Or.inr (Or.inr ⟨h1, h2, r, rfl, ?_⟩))
        simp [tickDownload, dlApply, complApply, h1, hz]
    · have hz : ¬ s1.left - min d s1.left = 0 := by omega
      refine Or.inr (Or.inl ⟨h1, h2, ?_⟩)
      simp [tickDownload, dlApply, h1, hz]
  · refine Or.inl ⟨h1, ?_⟩
    simp [tickDownload, h1]

theorem stopM_left (s : FakerStM) (r : Option RespM) :
    (stopM s r).1.left = s.left := by
  cases r <;> rfl

theorem stopM_state (s : FakerStM) (r : Option RespM) :
    ((stopM s r).1.state = s.state ∧ (stopM s r).2 = false) ∨
    ((stopM s r).1.state = FState.stopped ∧ (stopM s r).2 = true) := by
  cases r with
  | none => exact Or.inl ⟨rfl, rfl⟩
  | some r => exact Or.inr ⟨rfl, rfl⟩

theorem tickFinish_left (cfg : FakerCfgM) (s4 : FakerStM) (now : Nat)
    (sres pres : Option RespM) (evs : List Ev) :
    (tickFinish cfg s4 now sres pres evs).1.left = s4.left := by
  simp only [tickFinish]
  by_cases hc : check_stop_conditions cfg s4
  · simp [hc, stopM_left]
  · simp only [hc]
    cases hna : s4.next_announce with
    | none => simp [hna]
    | some na =>
      by_cases hle : na ≤ now
      · cases pres <;> simp [hle, hna]
      · simp [hle, hna]

theorem tickFinish_evs (cfg : FakerCfgM) (s4 : FakerStM) (now : Nat)
    (sres pres : Option RespM) (evs : List Ev) :
    (tickFinish cfg s4 now sres pres evs).2.1 = evs ∨
    (tickFinish cfg s4 now sres pres evs).2.1 = evs ++ [Ev.stoppedE] ∨
    (tickFinish cfg s4 now sres pres evs).2.1 = evs ++ [Ev.periodic] := by
  simp only [tickFinish]
  by_cases hc : check_stop_conditions cfg s4
  · simp [hc]
  · simp only [hc]
    cases hna : s4.next_announce with
    | none => simp [hna]
    | some na =>
      by_cases hle : na ≤ now
      · cases pres <;> simp [hle, hna]
      · simp [hle, hna]

theorem tickFinish_state (cfg : FakerCfgM) (s4 : FakerStM) (now : Nat)
    (sres pres : Option RespM) (evs : List Ev) :
    (tickFinish cfg s4 now sres pres evs).1.state = s4.state ∨
    ((tickFinish cfg s4 now sres pres evs).1.state = FState.stopped ∧
      Ev.stoppedE ∈ (tickFinish cfg s4 now sres pres evs).2.1) := by
  simp only [tickFinish]
  by_cases hc : check_stop_conditions cfg s4
  · cases sres with
    | none => simp [hc, stopM]
    | some r => simp [hc, stopM]
  · simp only [hc]
    cases hna : s4.next_announce with
    | none => simp [hna]
    | some na =>
      by_cases hle : na ≤ now
      · cases pres <;> simp [hle, hna]
      · simp [hle, hna]

theorem runTicks_cons (cfg : FakerCfgM) (s : FakerStM) (env : TickEnv)
    (envs : List TickEnv) :
    runTicks cfg s (env :: envs) =
      ((runTicks cfg (updateM cfg s env).1 envs).1,
       (updateM cfg s env).2.1 ++ (runTicks cfg (updateM cfg s env).1 envs).2) := by
  simp only [runTicks]

theorem updateM_left (cfg : FakerCfgM) (s : FakerStM) (env : TickEnv) :
    (updateM cfg s env).1.left = s.left - min env.downDelta s.left := by
  rcases tickDownload_cases (tickCounters s env.now env.upDelta) env.downDelta
      env.completedRes with ⟨h1, hdl⟩ | ⟨h1, h2, hdl⟩ | ⟨h1, h2, hc, hdl⟩ |
      ⟨h1, h2, r, hc, hdl⟩ <;> simp only [updateM, hdl]
  · rw [tickFinish_left]
    have h1' : ¬ 0 < s.left := h1
    have hz : s.left = 0 := by omega
    simp [tickRefresh, tickCounters, hz]
  · rw [tickFinish_left]
    rfl
  · rfl
  · rw [tickFinish_left]
    rfl

theorem updateM_completed_iff (cfg : FakerCfgM) (s : FakerStM) (env : TickEnv) :
    Ev.completedE ∈ (updateM cfg s env).2.1 ↔
      (0 < s.left ∧ s.left ≤ env.downDelta) := by
  rcases tickDownload_cases (tickCounters s env.now env.upDelta) env.downDelta
      env.completedRes with ⟨h1, hdl⟩ | ⟨h1, h2, hdl⟩ | ⟨h1, h2, hc, hdl⟩ |
      ⟨h1, h2, r, hc, hdl⟩ <;> simp only [updateM, hdl]
  · constructor
    · intro hmem
      rcases tickFinish_evs cfg (tickRefresh cfg (tickCounters s env.now env.upDelta)
          env.now) env.now env.stoppedRes env.periodicRes [] with h | h | h <;>
        rw [h] at hmem <;> simp at hmem
    · intro ⟨ha, _⟩
      exact absurd ha h1
  · constructor
    · intro hmem
      rcases tickFinish_evs cfg (tickRefresh cfg (dlApply (tickCounters s env.now
          env.upDelta) env.downDelta) env.now) env.now env.stoppedRes
          env.periodicRes [] with h | h | h <;>
        rw [h] at hmem <;> simp at hmem
    · intro ⟨_, hb⟩
      exact absurd hb h2
  · simp
    exact ⟨h1, h2⟩
  · constructor
    · intro _
      exact ⟨h1, h2⟩
    · intro _
      rcases tickFinish_evs cfg (tickRefresh cfg (complApply (dlApply
          (tickCounters s env.now env.upDelta) env.downDelta) r) env.now) env.now
          env.stoppedRes env.periodicRes [Ev.completedE] with h | h | h <;>
        rw [h] <;> simp

theorem updateM_completed_left_zero (cfg : FakerCfgM) (s : FakerStM)
    (env : TickEnv) (h : Ev.completedE ∈ (updateM cfg s env).2.1) :
    (updateM cfg s env).1.left = 0 := by
  have := (updateM_completed_iff cfg s env).mp h
  rw [updateM_left]
  omega

theorem updateM_count_le_one (cfg : FakerCfgM) (s : FakerStM) (env : TickEnv) :
    (updateM cfg s env).2.1.count Ev.completedE ≤ 1 := by
  rcases tickDownload_cases (tickCounters s env.now env.upDelta) env.downDelta
      env.completedRes with ⟨h1, hdl⟩ | ⟨h1, h2, hdl⟩ | ⟨h1, h2, hc, hdl⟩ |
      ⟨h1, h2, r, hc, hdl⟩ <;> simp only [updateM, hdl]
  · rcases tickFinish_evs cfg (tickRefresh cfg (tickCounters s env.now env.upDelta)
        env.now) env.now env.stoppedRes env.periodicRes [] with h | h | h <;>
      rw [h] <;> simp
  · rcases tickFinish_evs cfg (tickRefresh cfg (dlApply (tickCounters s env.now
        env.upDelta) env.downDelta) env.now) env.now env.stoppedRes
        env.periodicRes [] with h | h | h <;>
      rw [h] <;> simp
  · simp
  · rcases tickFinish_evs cfg (tickRefresh cfg (complApply (dlApply
        (tickCounters s env.now env.upDelta) env.downDelta) r) env.now) env.now
        env.stoppedRes env.periodicRes [Ev.completedE] with h | h | h <;>
      rw [h] <;> simp [List.count_append, List.count_cons, List.count_nil]

theorem updateM_left_zero_evs (cfg : FakerCfgM) (s : FakerStM) (env : TickEnv)
    (h : s.left = 0) :
    (updateM cfg s env).1.left = 0 ∧
    ∀ e ∈ (updateM cfg s env).2.1, e = Ev.stoppedE ∨ e = Ev.periodic := by
  have h1 : (tickCounters s env.now env.upDelta).left = 0 := h
  have hdl : tickDownload (tickCounters s env.now env.upDelta) env.downDelta
      env.completedRes = Sum.inr (tickCounters s env.now env.upDelta, []) := by
    simp [tickDownload, h1]
  simp only [updateM, hdl]
  constructor
  · rw [tickFinish_left]
    exact h1
  · intro e he
    rcases tickFinish_evs cfg (tickRefresh cfg (tickCounters s env.now env.upDelta)
        env.now) env.now env.stoppedRes env.periodicRes [] with hh | hh | hh <;>
      rw [hh] at he <;> simp at he <;> tauto

theorem updateM_completed_success_state (cfg : FakerCfgM) (s : FakerStM)
    (env : TickEnv) (r : RespM) (hc : env.completedRes = some r)
    (hm : Ev.completedE ∈ (updateM cfg s env).2.1) :
    (updateM cfg s env).1.state = FState.completedS ∨
    ((updateM cfg s env).1.state = FState.stopped ∧
      Ev.stoppedE ∈ (updateM cfg s env).2.1) := by
  rcases tickDownload_cases (tickCounters s env.now env.upDelta) env.downDelta
      env.completedRes with ⟨h1, hdl⟩ | ⟨h1, h2, hdl⟩ | ⟨h1, h2, hcc, hdl⟩ |
      ⟨h1, h2, r', hcc, hdl⟩
  · exact absurd ((updateM_completed_iff cfg s env).mp hm) (by tauto)
  · exact absurd ((updateM_completed_iff cfg s env).mp hm) (by tauto)
  · rw [hc] at hcc
    exact absurd hcc (by simp)
  · simp only [updateM, hdl]
    rcases tickFinish_state cfg (tickRefresh cfg (complApply (dlApply
        (tickCounters s env.now env.upDelta) env.downDelta) r') env.now) env.now
        env.stoppedRes env.periodicRes [Ev.completedE] with hh | ⟨hh, hmem⟩
    · left
      rw [hh]
      rfl
    · right
      exact ⟨hh, hmem⟩

theorem updateM_completed_fail_state (cfg : FakerCfgM) (s : FakerStM)
    (env : TickEnv) (hc : env.completedRes = none)
    (hm : Ev.completedE ∈ (updateM cfg s env).2.1) :
    (updateM cfg s env).1.state = s.state ∧ (updateM cfg s env).2.2 = false := by
  rcases tickDownload_cases (tickCounters s env.now env.upDelta) env.downDelta
      env.completedRes with ⟨h1, hdl⟩ | ⟨h1, h2, hdl⟩ | ⟨h1, h2, hcc, hdl⟩ |
      ⟨h1, h2, r', hcc, hdl⟩
  · exact absurd ((updateM_completed_iff cfg s env).mp hm) (by tauto)
  · exact absurd ((updateM_completed_iff cfg s env).mp hm) (by tauto)
  · simp only [updateM, hdl]
    exact ⟨rfl, by trivial⟩
  · rw [hc] at hcc
    exact absurd hcc (by simp)

theorem runTicks_left_zero (cfg : FakerCfgM) :
    ∀ (envs : List TickEnv) (s : FakerStM), s.left = 0 →
      (runTicks cfg s envs).1.left = 0 ∧
      (runTicks cfg s envs).2.count Ev.completedE = 0 ∧
      ∀ e ∈ (runTicks cfg s envs).2, e = Ev.stoppedE ∨ e = Ev.periodic := by
  intro envs
  induction envs with
  | nil =>
    intro s h
    simp [runTicks, h]
  | cons env envs ih =>
    intro s h
    have hA := updateM_left_zero_evs cfg s env h
    have hrec := ih (updateM cfg s env).1 hA.1
    rw [runTicks_cons]
    refine ⟨hrec.1, ?_, ?_⟩
    · rw [List.count_append]
      have hnc : Ev.completedE ∉ (updateM cfg s env).2.1 := by
        intro hmem
        rcases hA.2 _ hmem with hh | hh <;> simp at hh
      rw [List.count_eq_zero.mpr hnc, hrec.2.1]
    · intro e he
      rw [List.mem_append] at he
      rcases he with he | he
      · exact hA.2 _ he
      · exact hrec.2.2 _ he

theorem runTicks_completed_count (cfg : FakerCfgM) :
    ∀ (envs : List TickEnv) (s : FakerStM),
      (runTicks cfg s envs).2.count Ev.completedE ≤ 1 := by
  intro envs
  induction envs with
  | nil =>
    intro s
    simp [runTicks]
  | cons env envs ih =>
    intro s
    rw [runTicks_cons, List.count_append]
    by_cases hmem : Ev.completedE ∈ (updateM cfg s env).2.1
    · have h0 := updateM_completed_left_zero cfg s env hmem
      have hz := (runTicks_left_zero cfg envs _ h0).2.1
      have h1 := updateM_count_le_one cfg s env
      omega
    · have h0 : (updateM cfg s env).2.1.count Ev.completedE = 0 :=
        List.count_eq_zero.mpr hmem
      have h1 := ih (updateM cfg s env).1
      omega

/-! ### Claims -/

/-- C10: for every generated peer id of the qBittorrent variant at version
5.1.4 (the default version, which is the same configuration as an
explicit 5.1.4), the id has length exactly 20, begins with the exact
8 bytes -qB5140-, and its 12-character suffix contains only characters
in 0-9, A-Z, a-z. -/
theorem C10_qbittorrent_peer_id_shape :
    qbittorrent (some "5.1.4".data) = qbittorrent none ∧
    ∀ pick : Fin 12 → Fin 62,
      (generate_peer_id (qbittorrent none) pick).length = 20 ∧
      (generate_peer_id (qbittorrent none) pick).take 8 = "-qB5140-".data ∧
      ∀ c ∈ (generate_peer_id (qbittorrent none) pick).drop 8,
        ('0' ≤ c ∧ c ≤ '9') ∨ ('A' ≤ c ∧ c ≤ 'Z') ∨ ('a' ≤ c ∧ c ≤ 'z') := by
  refine ⟨rfl, fun pick => ⟨?_, rfl, ?_⟩⟩
  · have hpref : (qbittorrent none).peer_id_pref = "-qB5140-".data := rfl
    simp [generate_peer_id, hpref]
  · intro c hc
    have hpref : (qbittorrent none).peer_id_pref = "-qB5140-".data := rfl
    have hdrop : (generate_peer_id (qbittorrent none) pick).drop 8 =
        (List.finRange 12).map fun i => alphaChar (pick i) := rfl
    rw [hdrop] at hc
    simp only [List.mem_map] at hc
    obtain ⟨i, -, rfl⟩ := hc
    have hall : ∀ j : Fin 62,
        ('0' ≤ alphaChar j ∧ alphaChar j ≤ '9') ∨
        ('A' ≤ alphaChar j ∧ alphaChar j ≤ 'Z') ∨
        ('a' ≤ alphaChar j ∧ alphaChar j ≤ 'z') := by decide
    exact hall (pick i)

/-- C10 witness: the shape facts at the all-zero draw. -/
theorem C10_qbittorrent_peer_id_shape_witness :
    (generate_peer_id (qbittorrent none) (fun _ => (0 : Fin 62))).length = 20 ∧
    (generate_peer_id (qbittorrent none) (fun _ => (0 : Fin 62))).take 8 =
      "-qB5140-".data ∧
    (('0' ≤ '0' ∧ '0' ≤ '9') ∨ ('A' ≤ '0' ∧ '0' ≤ 'Z') ∨
      ('a' ≤ '0' ∧ '0' ≤ 'z')) :=
  ⟨(C10_qbittorrent_peer_id_shape.2 (fun _ => (0 : Fin 62))).1,
   (C10_qbittorrent_peer_id_shape.2 (fun _ => (0 : Fin 62))).2.1,
   (C10_qbittorrent_peer_id_shape.2 (fun _ => (0 : Fin 62))).2.2 '0'
     (by decide)⟩

/-- C7: create_instance_internal inherits the cumulative counters (as the
faker config's initial counter values and as the stored instance's
cumulative fields) exactly when the id already exists with the same
info hash; a differing hash or a fresh id starts both counters at
zero. -/
theorem C7_cumulative_counter_rule
    (instances : List (String × StoredInstance)) (id : String)
    (h : List Nat) (cfg : CreateCfg) (src : SourceM) (now : Nat) :
    (∀ ex, mapLookup instances id = some ex → ex.torrent_info_hash = h →
      (create_instance_internal instances id h cfg src now).2 =
        { initial_uploaded := ex.cumulative_uploaded,
          initial_downloaded := ex.cumulative_downloaded } ∧
      mapLookup (create_instance_internal instances id h cfg src now).1 id =
        some { torrent_info_hash := h,
               cumulative_uploaded := ex.cumulative_uploaded,
               cumulative_downloaded := ex.cumulative_downloaded,
               created_at := ex.created_at, source := ex.source }) ∧
    (∀ ex, mapLookup instances id = some ex → ex.torrent_info_hash ≠ h →
      (create_instance_internal instances id h cfg src now).2 =
        { initial_uploaded := 0, initial_downloaded := 0 } ∧
      mapLookup (create_instance_internal instances id h cfg src now).1 id =
        some { torrent_info_hash := h, cumulative_uploaded := 0,
               cumulative_downloaded := 0, created_at := now, source := src }) ∧
    (mapLookup instances id = none →
      (create_instance_internal instances id h cfg src now).2 =
        { initial_uploaded := 0, initial_downloaded := 0 } ∧
      mapLookup (create_instance_internal instances id h cfg src now).1 id =
        some { torrent_info_hash := h, cumulative_uploaded := 0,
               cumulative_downloaded := 0, created_at := now, source := src }) := by
  refine ⟨?_, ?_, ?_⟩
  · intro ex hlook hhash
    constructor
    · simp [create_instance_internal, hlook, hhash]
    · simp only [create_instance_internal, hlook, hhash, if_pos]
      simp [mapLookup_mapInsert, hhash]
  · intro ex hlook hhash
    constructor
    · simp [create_instance_internal, hlook, hhash]
    · simp only [create_instance_internal, hlook]
      simp [mapLookup_mapInsert, hhash]
  · intro hlook
    constructor
    · simp [create_instance_internal, hlook]
    · simp only [create_instance_internal, hlook]
      simp [mapLookup_mapInsert]

/-- C7 witness: a stored session S with cumulative counters 10000 and 5000
is inherited when re-created with the same hash, and reset when
re-created with a different hash or under a fresh id. -/
theorem C7_cumulative_counter_rule_witness :
    (mapLookup [("S", ⟨strBytes "h1", 10000, 5000, 7, .manual⟩)] "S" =
      some ⟨strBytes "h1", 10000, 5000, 7, .manual⟩) ∧
    (create_instance_internal [("S", ⟨strBytes "h1", 10000, 5000, 7, .manual⟩)]
      "S" (strBytes "h1") ⟨0, 0⟩ .manual 99).2 =
        { initial_uploaded := 10000, initial_downloaded := 5000 } ∧
    (create_instance_internal [("S", ⟨strBytes "h1", 10000, 5000, 7, .manual⟩)]
      "S" (strBytes "h2") ⟨0, 0⟩ .manual 99).2 =
        { initial_uploaded := 0, initial_downloaded := 0 } ∧
    (create_instance_internal [("S", ⟨strBytes "h1", 10000, 5000, 7, .manual⟩)]
      "T" (strBytes "h1") ⟨0, 0⟩ .manual 99).2 =
        { initial_uploaded := 0, initial_downloaded := 0 } := by
  refine ⟨by decide, ?_, ?_, ?_⟩
  · exact ((C7_cumulative_counter_rule
      [("S", ⟨strBytes "h1", 10000, 5000, 7, .manual⟩)] "S" (strBytes "h1")
      ⟨0, 0⟩ .manual 99).1 ⟨strBytes "h1", 10000, 5000, 7, .manual⟩
      (by decide) (by decide)).1
  · exact ((C7_cumulative_counter_rule
      [("S", ⟨strBytes "h1", 10000, 5000, 7, .manual⟩)] "S" (strBytes "h2")
      ⟨0, 0⟩ .manual 99).2.1 ⟨strBytes "h1", 10000, 5000, 7, .manual⟩
      (by decide) (by decide)).1
  · exact ((C7_cumulative_counter_rule
      [("S", ⟨strBytes "h1", 10000, 5000, 7, .manual⟩)] "T" (strBytes "h1")
      ⟨0, 0⟩ .manual 99).2.2 (by decide)).1

/-- C5 state for the evaluation: a running session that has announced once
(last announce observed at 60) and currently sees zero leechers. -/
def c5stats : FakerStM :=
  { state := .running, statsState := .running, uploaded := 0, downloaded := 0,
    left := 0, session_uploaded := 0, session_downloaded := 0, seeders := 5,
    leechers := 0, ratio := 0, elapsed_time := 65, last_announce := some 60,
    next_announce := some 120, announce_interval := 60, start_time := 0,
    last_update := 60 }

/-- C5: the per-tick stop evaluation has no leecher predicate at all: the
value of check_stop_conditions never depends on the leecher count, and
for a running session with zero leechers and an observed announce (and
no other stop threshold configured) no stop fires, no stopped announce
is issued and the state stays Running — where the claim says
stop_when_no_leechers must fire. -/
theorem C5_no_leecher_predicate :
    (∀ cfg s x, check_stop_conditions cfg { s with leechers := x } =
      check_stop_conditions cfg s) ∧
    check_stop_conditions ⟨1048576, none, none, none, none⟩ c5stats = false ∧
    (updateM ⟨1048576, none, none, none, none⟩ c5stats
      ⟨65, 0, 0, none, none, none⟩).1.state = FState.running ∧
    Ev.stoppedE ∉ (updateM ⟨1048576, none, none, none, none⟩ c5stats
      ⟨65, 0, 0, none, none, none⟩).2.1 := by
  refine ⟨fun cfg s x => rfl, by decide, by decide, by decide⟩

/-- C4 counterexample state: a running session. -/
def c4state : FakerStM :=
  { state := .running, statsState := .running, uploaded := 4096,
    downloaded := 2048, left := 0, session_uploaded := 4096,
    session_downloaded := 2048, seeders := 1, leechers := 2, ratio := 0,
    elapsed_time := 100, last_announce := some 90, next_announce := some 150,
    announce_interval := 60, start_time := 0, last_update := 95 }

/-- C4 counterexample: when the stopped announce fails, stop() returns the
error and the session does NOT transition to Stopped — neither the
supervisor-level cell nor the stats state tag is written, contradicting
the claim that the failure is only logged and the transition still
happens. -/
theorem C4_stop_failure_blocks_transition :
    (stopM c4state none).1.state ≠ FState.stopped ∧
    (stopM c4state none).1.statsState ≠ FState.stopped ∧
    (stopM c4state none).2 = false ∧
    (stop_instance ⟨c4state, 0, 0⟩ none).1.faker.state ≠ FState.stopped ∧
    (stop_instance ⟨c4state, 0, 0⟩ none).2 = false := by
  refine ⟨by decide, by decide, rfl, by decide, rfl⟩

/-- C4 amended: stop() sends the stopped announce first and propagates its
failure: on failure the session state is completely unchanged (no cell
is set to Stopped) and the server-level stop_instance leaves the
cumulative counters untouched; only on success are both state cells set
to Stopped and the cumulative counters updated from the pre-stop
snapshot. -/
theorem C4_stop_transition_requires_announce_success
    (s : FakerStM) (inst : ServerInstance) :
    stopM s none = (s, false) ∧
    (∀ r, (stopM s (some r)).1 =
      { s with state := .stopped, statsState := .stopped } ∧
      (stopM s (some r)).2 = true) ∧
    stop_instance inst none = (inst, false) ∧
    (∀ r, stop_instance inst (some r) =
      ({ faker := { inst.faker with state := .stopped, statsState := .stopped },
         cumulative_uploaded := inst.faker.uploaded,
         cumulative_downloaded := inst.faker.downloaded }, true)) := by
  refine ⟨rfl, fun r => ⟨rfl, rfl⟩, ?_, fun r => ?_⟩
  · simp [stop_instance, stopM]
  · simp [stop_instance, stopM]

set_option maxRecDepth 8192 in
set_option maxHeartbeats 2000000 in
/-- C2: build_announce_url agrees with the specified assembly on every
input: parameters in the fixed order info_hash, peer_id, port,
uploaded, downloaded, left, compact, then each optional parameter
exactly when present in the order no_peer_id, event, ip, numwant, key,
trackerid, supportcrypto; the separator is a question mark exactly when
the base URL has none; and the info_hash value is one uppercase-hex
percent pair per raw hash byte (so twenty pairs for the 20 hash
bytes). -/
theorem C2_announce_url_assembly (cfg : ClientConfigM) (tracker_url : List Char)
    (r : AnnounceRequestM) :
    build_announce_url cfg tracker_url r = announceUrlSpec cfg tracker_url r ∧
    (infoHashEnc r.info_hash).length = 3 * r.info_hash.length ∧
    infoHashEnc r.info_hash = (r.info_hash.map byteHexU).flatten ∧
    (∀ b : Fin 256, (byteHexU b.val).length = 3 ∧
      (byteHexU b.val).take 1 = ['%'] ∧
      ∀ c ∈ (byteHexU b.val).drop 1, c ∈ "0123456789ABCDEF".data) := by
  refine ⟨?_, infoHashEnc_length r.info_hash, rfl, by decide⟩
  obtain ⟨ih, pid, port, up, down, lf, cpt, npi, ev, ip, nw, k, tid⟩ := r
  obtain ⟨ct, vv, pf, ua, nwant, sc, scr⟩ := cfg
  cases npi <;> cases ev <;> cases ip <;> cases nw <;> cases k <;> cases tid <;>
    cases scr <;> rfl

/-- C3 fixtures: a running seeding session whose periodic announce is due
at 100, and a tick at 100 whose periodic announce fails (c3envF) or
succeeds with interval 60 (c3envS). -/
def c3cfg : FakerCfgM := ⟨1048576, none, none, none, none⟩

def c3state : FakerStM :=
  { state := .running, statsState := .running, uploaded := 0, downloaded := 0,
    left := 0, session_uploaded := 0, session_downloaded := 0, seeders := 1,
    leechers := 2, ratio := 0, elapsed_time := 95, last_announce := some 40,
    next_announce := some 100, announce_interval := 60, start_time := 0,
    last_update := 95 }

def c3envF : TickEnv := ⟨100, 0, 0, none, none, none⟩

def c3envS : TickEnv := ⟨100, 0, 0, none, none, some ⟨60, 3, 2⟩⟩

/-- C3 counterexample: after a failed periodic announce the schedule is
NOT the one a successful announce would have produced: the success run
reschedules next_announce to 160 while the failure run leaves it at the
already-passed 100, so the failure run announces again on the very next
tick (105) where the success run stays silent — contradicting the
claim that the next attempt happens exactly as if the announce had
succeeded. -/
theorem C3_failed_announce_not_as_if_succeeded :
    (updateM c3cfg c3state c3envF).1.next_announce = some 100 ∧
    (updateM c3cfg c3state c3envS).1.next_announce = some 160 ∧
    (updateM c3cfg c3state c3envF).1.next_announce ≠
      (updateM c3cfg c3state c3envS).1.next_announce ∧
    Ev.periodic ∈ (updateM c3cfg c3state c3envF).2.1 ∧
    (updateM c3cfg c3state c3envF).2.2 = false ∧
    Ev.periodic ∈ (updateM c3cfg ((updateM c3cfg c3state c3envF).1)
      ⟨105, 0, 0, none, none, some ⟨60, 3, 2⟩⟩).2.1 ∧
    Ev.periodic ∉ (updateM c3cfg ((updateM c3cfg c3state c3envS).1)
      ⟨105, 0, 0, none, none, some ⟨60, 3, 2⟩⟩).2.1 := by
  refine ⟨rfl, rfl, by decide, by decide, rfl, by decide, by decide⟩

/-- C3 amended: a failed periodic announce leaves the state tags and all
byte counters exactly as a successful one would have (the failure
itself changes nothing, and the same announces are issued during the
tick), but it does not reschedule: next_announce keeps the session's
previous value, so the announce is simply re-attempted on the next tick
rather than one full interval later. -/
theorem C3_failed_announce_state_and_schedule (cfg : FakerCfgM) (s : FakerStM)
    (env : TickEnv) (r : RespM) :
    (updateM cfg s { env with periodicRes := none }).1.state =
      (updateM cfg s { env with periodicRes := some r }).1.state ∧
    (updateM cfg s { env with periodicRes := none }).1.statsState =
      (updateM cfg s { env with periodicRes := some r }).1.statsState ∧
    (updateM cfg s { env with periodicRes := none }).1.uploaded =
      (updateM cfg s { env with periodicRes := some r }).1.uploaded ∧
    (updateM cfg s { env with periodicRes := none }).1.downloaded =
      (updateM cfg s { env with periodicRes := some r }).1.downloaded ∧
    (updateM cfg s { env with periodicRes := none }).1.left =
      (updateM cfg s { env with periodicRes := some r }).1.left ∧
    (updateM cfg s { env with periodicRes := none }).1.session_uploaded =
      (updateM cfg s { env with periodicRes := some r }).1.session_uploaded ∧
    (updateM cfg s { env with periodicRes := none }).1.session_downloaded =
      (updateM cfg s { env with periodicRes := some r }).1.session_downloaded ∧
    (updateM cfg s { env with periodicRes := none }).2.1 =
      (updateM cfg s { env with periodicRes := some r }).2.1 ∧
    (updateM cfg s { env with periodicRes := none }).1.next_announce =
      s.next_announce := by
  obtain ⟨now, up, down, cres, sres, pres⟩ := env
  simp only [updateM]
  cases hdl : tickDownload (tickCounters s now up) down cres with
  | inl out =>
    refine ⟨rfl, rfl, rfl, rfl, rfl, rfl, rfl, rfl, ?_⟩
    exact tickDownload_inl_next (tickCounters s now up) down cres out hdl
  | inr pr =>
    obtain ⟨s3, evs⟩ := pr
    have hcmp := tickFinish_compare cfg (tickRefresh cfg s3 now) now sres evs r
    have hnext := tickFinish_next_fail cfg (tickRefresh cfg s3 now) now sres evs
    have h3 : s3.next_announce = s.next_announce :=
      tickDownload_inr_next (tickCounters s now up) down cres s3 evs hdl
    exact ⟨hcmp.1, hcmp.2.1, hcmp.2.2.1, hcmp.2.2.2.1, hcmp.2.2.2.2.1,
      hcmp.2.2.2.2.2.1, hcmp.2.2.2.2.2.2.1, hcmp.2.2.2.2.2.2.2,
      hnext.trans h3⟩

/-- C2 witness: the assembly equality at a concrete configuration and
request, plus the pair-shape facts at the byte 0 and the digit 0. -/
theorem C2_announce_url_assembly_witness :
    build_announce_url (qbittorrent none) "http://tr/a".data
      ⟨List.replicate 20 0, "-qB5140-AAAAAAAAAAAA".data, 6881, 1, 2, 3, true,
        false, .started, none, some 50, some "ABCD1234".data, none⟩ =
      announceUrlSpec (qbittorrent none) "http://tr/a".data
        ⟨List.replicate 20 0, "-qB5140-AAAAAAAAAAAA".data, 6881, 1, 2, 3, true,
          false, .started, none, some 50, some "ABCD1234".data, none⟩ ∧
    (byteHexU (0 : Fin 256).val).length = 3 ∧
    '0' ∈ "0123456789ABCDEF".data :=
  ⟨(C2_announce_url_assembly (qbittorrent none) "http://tr/a".data
      ⟨List.replicate 20 0, "-qB5140-AAAAAAAAAAAA".data, 6881, 1, 2, 3, true,
        false, .started, none, some 50, some "ABCD1234".data, none⟩).1,
   ((C2_announce_url_assembly (qbittorrent none) "http://tr/a".data
      ⟨List.replicate 20 0, "-qB5140-AAAAAAAAAAAA".data, 6881, 1, 2, 3, true,
        false, .started, none, some 50, some "ABCD1234".data, none⟩).2.2.2
      (0 : Fin 256)).1,
   ((C2_announce_url_assembly (qbittorrent none) "http://tr/a".data
      ⟨List.replicate 20 0, "-qB5140-AAAAAAAAAAAA".data, 6881, 1, 2, 3, true,
        false, .started, none, some 50, some "ABCD1234".data, none⟩).2.2.2
      (0 : Fin 256)).2.2 '0' (by decide)⟩

/-- C8 fixture: a bencoded body that carries a failure reason. -/
def failureBody : List Nat := strBytes "d14:failure reason4:fulle"

/-- C8 counterexample: a 404 response whose body contains the key failure
reason is surfaced as HttpError, not TrackerFailure — the status check
happens before the body is ever parsed, contradicting the claim that
the failure reason is surfaced regardless of the HTTP status code. -/
theorem C8_non2xx_failure_reason_is_http_error :
    announceResult 404 failureBody = TrackerResultM.httpError ∧
    announceResult 404 failureBody ≠
      TrackerResultM.trackerFailure (strBytes "full") ∧
    parse_announce_response failureBody =
      TrackerResultM.trackerFailure (strBytes "full") := by
  refine ⟨rfl, by decide, rfl⟩

/-- C8 amended: any response status outside 2xx yields HttpError without
the body being inspected, and only for a 2xx status is a body whose
dictionary contains the key failure reason surfaced as TrackerFailure
carrying that reason. -/
theorem C8_failure_reason_only_on_2xx (status : Nat) (body : List Nat) :
    (¬ (200 ≤ status ∧ status ≤ 299) →
      announceResult status body = TrackerResultM.httpError) ∧
    (∀ dict r, 200 ≤ status → status ≤ 299 →
      bparse body = some (.dict dict) →
      dictGet dict (strBytes "failure reason") = some (.bytes r) →
      announceResult status body = TrackerResultM.trackerFailure r) := by
  constructor
  · intro h
    simp [announceResult, h]
  · intro dict r h1 h2 hb hf
    simp only [announceResult, h1, h2, and_self, if_true]
    simp [parse_announce_response, hb, hf]

/-- C8 witness: the amended theorem applied at status 404 and at status
200 with the concrete failure body. -/
theorem C8_failure_reason_only_on_2xx_witness :
    announceResult 404 failureBody = TrackerResultM.httpError ∧
    announceResult 200 failureBody =
      TrackerResultM.trackerFailure (strBytes "full") :=
  ⟨(C8_failure_reason_only_on_2xx 404 failureBody).1 (by decide),
   (C8_failure_reason_only_on_2xx 200 failureBody).2
     [(strBytes "failure reason", .bytes (strBytes "full"))]
     (strBytes "full") (by decide) (by decide) rfl rfl⟩

theorem formEncChar_pct : formEncChar '%' = ['%', '2', '5'] := by decide

theorem formEncChar_hexDigit : ∀ n : Fin 16,
    formEncChar (hexDigitU n.val) = [hexDigitU n.val] := by decide

theorem formEnc_byteHexU (b : Nat) :
    formEnc (byteHexU b) =
      '%' :: '2' :: '5' :: [hexDigitU (b / 16 % 16), hexDigitU (b % 16)] := by
  have h1 := formEncChar_hexDigit ⟨b / 16 % 16, Nat.mod_lt _ (by norm_num)⟩
  have h2 := formEncChar_hexDigit ⟨b % 16, Nat.mod_lt _ (by norm_num)⟩
  simp only [byteHexU, formEnc, List.map_cons, List.map_nil, List.flatten_cons,
    List.flatten_nil, formEncChar_pct] at *
  rw [h1, h2]
  rfl

theorem formEnc_infoHashEnc (h : List Nat) :
    formEnc (infoHashEnc h) =
      (h.map fun b => '%' :: '2' :: '5' ::
        [hexDigitU (b / 16 % 16), hexDigitU (b % 16)]).flatten := by
  induction h with
  | nil => rfl
  | cons b t ih =>
    have hsplit : infoHashEnc (b :: t) = byteHexU b ++ infoHashEnc t := by
      simp [infoHashEnc]
    rw [hsplit]
    have happ : formEnc (byteHexU b ++ infoHashEnc t) =
        formEnc (byteHexU b) ++ formEnc (infoHashEnc t) := by
      simp [formEnc]
    rw [happ, formEnc_byteHexU, ih]
    simp

/-- C9 fixture: an all-zero twenty-byte info hash. -/
def h20 : List Nat := List.replicate 20 0

set_option maxRecDepth 16384 in
set_option maxHeartbeats 1000000 in
/-- C9 counterexample: for the announce URL with a non-final announce
segment the produced scrape URL replaces BOTH occurrences (not only the
final path segment), and even for a plain announce URL the twenty
percent pairs do not appear literally — each percent sign is re-encoded
as %25 by the url crate's query serializer.  The two inequalities
refute the claim's two requirements at concrete inputs; the final
equation shows what the code actually produces. -/
theorem C9_scrape_url_replaceall_and_reencoding :
    build_scrape_url "http://example.com/sub/announce/announce".data h20 ≠
      some ("http://example.com/sub/announce/scrape?info_hash=".data ++
        (h20.map byteHexU).flatten) ∧
    build_scrape_url "http://example.com/announce".data h20 ≠
      some ("http://example.com/scrape?info_hash=".data ++
        (h20.map byteHexU).flatten) ∧
    build_scrape_url "http://example.com/sub/announce/announce".data h20 =
      some ("http://example.com/sub/scrape/scrape?info_hash=%2500%2500%2500%2500%2500%2500%2500%2500%2500%2500%2500%2500%2500%2500%2500%2500%2500%2500%2500%2500".data) := by
  refine ⟨by decide, by decide, by decide⟩

/-- C9 amended: the scrape URL is derived from the announce URL by
replacing EVERY occurrence of the substring /announce with /scrape (not
only a final path segment), and the info-hash bytes are appended as a
query parameter whose twenty uppercase-hex pairs are re-percent-encoded
by the url crate's form serializer, each percent sign becoming %25. -/
theorem C9_scrape_url_shape (h : List Nat) :
    build_scrape_url "http://example.com/announce".data h =
      some ("http://example.com/scrape?info_hash=".data ++
        (h.map fun b => '%' :: '2' :: '5' ::
          [hexDigitU (b / 16 % 16), hexDigitU (b % 16)]).flatten) ∧
    build_scrape_url "http://example.com/sub/announce/announce".data h =
      some ("http://example.com/sub/scrape/scrape?info_hash=".data ++
        (h.map fun b => '%' :: '2' :: '5' ::
          [hexDigitU (b / 16 % 16), hexDigitU (b % 16)]).flatten) := by
  constructor
  · have base : build_scrape_url "http://example.com/announce".data h =
        some ("http://example.com/scrape?info_hash=".data ++
          formEnc (infoHashEnc h)) := rfl
    rw [base, formEnc_infoHashEnc]
  · have base : build_scrape_url "http://example.com/sub/announce/announce".data h =
        some ("http://example.com/sub/scrape/scrape?info_hash=".data ++
          formEnc (infoHashEnc h)) := rfl
    rw [base, formEnc_infoHashEnc]

/-- C6 fixtures: a session two ticks away from showing the behaviour: the
first tick completes the torrent (completed announce succeeds), the
second crosses the session-uploaded stop threshold. -/
def c6cfg : FakerCfgM := ⟨100, none, some 5, none, none⟩

def c6state : FakerStM :=
  { state := .running, statsState := .running, uploaded := 0, downloaded := 0,
    left := 10, session_uploaded := 0, session_downloaded := 0, seeders := 0,
    leechers := 0, ratio := 0, elapsed_time := 0, last_announce := none,
    next_announce := none, announce_interval := 60, start_time := 0,
    last_update := 0 }

def c6env1 : TickEnv := ⟨5, 0, 10, some ⟨60, 3, 2⟩, none, none⟩

def c6env2 : TickEnv := ⟨10, 10, 0, none, some ⟨60, 3, 2⟩, none⟩

/-- C6 counterexample: the tick after completion still reports left = 0,
but it issues a stopped announce (the session-uploaded stop predicate
fires) — not an event-less periodic announce, contradicting the claim
that every subsequent tick issues only periodic announces. -/
theorem C6_post_completion_tick_can_issue_stopped :
    (runTicks c6cfg c6state [c6env1, c6env2]).2 = [Ev.completedE, Ev.stoppedE] ∧
    (updateM c6cfg c6state c6env1).1.left = 0 ∧
    (updateM c6cfg c6state c6env1).1.state = FState.completedS ∧
    (updateM c6cfg (updateM c6cfg c6state c6env1).1 c6env2).2.1 =
      [Ev.stoppedE] ∧
    Ev.stoppedE ≠ Ev.periodic := by
  refine ⟨by decide, by decide, by decide, by decide, by decide⟩

/-- C6 amended: over any run of ticks a completed announce is issued at
most once, and a tick issues one exactly when it takes left from
positive to zero (left positive and the download delta at least left);
when the completed announce succeeds the session transitions to
Completed (ending in Stopped only if a stop predicate fires on the same
tick, which also issues a stopped announce), while a failed completed
announce leaves the state tag unchanged and makes the tick return the
error; once left is zero every subsequent tick keeps left at zero and
issues no started or completed announce — only stopped or periodic
ones. -/
theorem C6_completed_emitted_once (cfg : FakerCfgM) (s : FakerStM) :
    (∀ envs, (runTicks cfg s envs).2.count Ev.completedE ≤ 1) ∧
    (∀ env, Ev.completedE ∈ (updateM cfg s env).2.1 ↔
      (0 < s.left ∧ s.left ≤ env.downDelta)) ∧
    (∀ env r, env.completedRes = some r →
      Ev.completedE ∈ (updateM cfg s env).2.1 →
      (updateM cfg s env).1.state = FState.completedS ∨
      ((updateM cfg s env).1.state = FState.stopped ∧
        Ev.stoppedE ∈ (updateM cfg s env).2.1)) ∧
    (∀ env, env.completedRes = none →
      Ev.completedE ∈ (updateM cfg s env).2.1 →
      (updateM cfg s env).1.state = s.state ∧
      (updateM cfg s env).2.2 = false) ∧
    (∀ envs, s.left = 0 →
      (runTicks cfg s envs).1.left = 0 ∧
      (runTicks cfg s envs).2.count Ev.completedE = 0 ∧
      ∀ e ∈ (runTicks cfg s envs).2, e = Ev.stoppedE ∨ e = Ev.periodic) :=
  ⟨fun envs => runTicks_completed_count cfg envs s,
   fun env => updateM_completed_iff cfg s env,
   fun env r hc hm => updateM_completed_success_state cfg s env r hc hm,
   fun env hc hm => updateM_completed_fail_state cfg s env hc hm,
   fun envs h => runTicks_left_zero cfg envs s h⟩

/-- C6 witness: the completion tick of the concrete session emits the
completed announce and transitions to Completed, and from the completed
state a further tick keeps left at zero with no completed announce. -/
theorem C6_completed_emitted_once_witness :
    (runTicks c6cfg c6state [c6env1, c6env2]).2.count Ev.completedE ≤ 1 ∧
    Ev.completedE ∈ (updateM c6cfg c6state c6env1).2.1 ∧
    ((updateM c6cfg c6state c6env1).1.state = FState.completedS ∨
      ((updateM c6cfg c6state c6env1).1.state = FState.stopped ∧
        Ev.stoppedE ∈ (updateM c6cfg c6state c6env1).2.1)) ∧
    (runTicks c6cfg (updateM c6cfg c6state c6env1).1 [c6env2]).1.left = 0 ∧
    (runTicks c6cfg (updateM c6cfg c6state c6env1).1 [c6env2]).2.count
      Ev.completedE = 0 :=
  ⟨(C6_completed_emitted_once c6cfg c6state).1 [c6env1, c6env2],
   ((C6_completed_emitted_once c6cfg c6state).2.1 c6env1).mpr
     (by constructor <;> decide),
   (C6_completed_emitted_once c6cfg c6state).2.2.1 c6env1 ⟨60, 3, 2⟩ rfl
     (((C6_completed_emitted_once c6cfg c6state).2.1 c6env1).mpr
       (by constructor <;> decide)),
   ((C6_completed_emitted_once c6cfg
       ((updateM c6cfg c6state c6env1).1)).2.2.2.2 [c6env2] (by decide)).1,
   ((C6_completed_emitted_once c6cfg
       ((updateM c6cfg c6state c6env1).1)).2.2.2.2 [c6env2] (by decide)).2.1⟩

set_option maxRecDepth 65536 in
set_option maxHeartbeats 4000000 in
/-- C1: the torrent t1bytes — well formed but with its info dictionary
keys bencoded out of canonical order — is accepted by from_bytes, yet
the info_hash it reports is NOT the SHA-1 of the exact contiguous byte
slice of the bencoded info value as it appeared in the input: it equals
the SHA-1 of the serde_bencode re-serialization of the parsed value,
whose sorted dictionary keys make it differ from the original slice. -/
theorem C1_info_hash_hashes_reserialization :
    (from_bytes t1bytes).isSome = true ∧
    (infoSliceOriginal t1bytes).isSome = true ∧
    (from_bytes t1bytes).map TorrentInfoM.info_hash ≠
      (infoSliceOriginal t1bytes).map sha1 ∧
    (from_bytes t1bytes).map TorrentInfoM.info_hash =
      ((infoSliceOriginal t1bytes).bind fun sl =>
        (bparse sl).map fun v => sha1 (bencodeValGo t1bytes.length v)) := by
  refine ⟨rfl, rfl, by decide, rfl⟩

end Rustatio
